import Mathlib

/-!
Verification of the log-watcher core (`logwatcher_v2.py`).

Python strings are embedded as `List Char` (`PyStr`); machine-level details
(file handles, sleeping, subprocesses, HTTP) are abstracted: the tailer's
input is the sequence of log lines together with the time gap between their
arrivals, and every external command (grep, the three git subcommands) is an
oracle function supplied as a parameter, so that its output can be arbitrary.
-/

namespace LogWatcher

/-- Python strings are modelled as lists of characters. -/
abbrev PyStr := List Char

/-- The whitespace characters removed by Python `str.strip()` /
split on by `str.split()` (ASCII portion, which is all that occurs in logs). -/
def isSpaceChar (c : Char) : Bool :=
  c == ' ' || c == '\t' || c == '\n' || c == '\r' || c == '\x0b' || c == '\x0c'

/-- Python `s.strip()`: remove leading and trailing whitespace. -/
def trim (s : PyStr) : PyStr :=
  ((s.dropWhile isSpaceChar).reverse.dropWhile isSpaceChar).reverse

/-- Python `s.lower()` (ASCII case folding, as used by `re.IGNORECASE`). -/
def lowerStr (s : PyStr) : PyStr := s.map Char.toLower

/-- Substring test: `needle` occurs somewhere in `hay`
(Python `re.search` of a literal). -/
def containsSub (needle : PyStr) : PyStr → Bool
  | [] => needle.isPrefixOf []
  | c :: rest => needle.isPrefixOf (c :: rest) || containsSub needle rest

/-- Model of `self.error_start_pattern.search(line)` (source lines 61-63, used at 176):
case-insensitive match of `PHP (Fatal error|Warning|Notice|Parse error)` or
`[error]` anywhere in the line. -/
def errorStartPattern (line : PyStr) : Bool :=
  let l := lowerStr line
  containsSub ("php fatal error".toList) l ||
  containsSub ("php warning".toList) l ||
  containsSub ("php notice".toList) l ||
  containsSub ("php parse error".toList) l ||
  containsSub ("[error]".toList) l

/-! ## The tailing state machine (`LogWatcher.tail_log`, source lines 154-196)

A log line is modelled together with `gap`, the time (in milliseconds)
between the moment the previous line became readable and the moment this
line became readable (for the first line of the input, the gap is measured
from the start of tailing and is irrelevant: the outer loop has no timeout).
The code's idle timeout is `2` seconds, i.e. `2000` in these units; the
polling sleeps (0.5s/0.2s) only determine how promptly lines are seen and
are abstracted away.
-/

/-- A log line together with the time gap (ms) since the previous line. -/
structure TimedLine where
  gap : Nat
  text : PyStr
deriving DecidableEq

/-- Model of `"\n".join(current_trace)` (source lines 178, 188). -/
def joinTrace (ls : List PyStr) : PyStr := List.intercalate ['\n'] ls

/-- One execution of the outer-loop body on a newly read line
(source lines 175-180): strip the line; if it matches the error-start
pattern and a trace is buffered, emit the buffered trace and reset the
buffer; then append the stripped line to the buffer.  Returns the emitted
traces and the new buffer (the buffer is kept in reverse order). -/
def outerStep (line : PyStr) (buf : List PyStr) : List PyStr × List PyStr :=
  let l := trim line
  if errorStartPattern l ∧ buf ≠ [] then ([joinTrace buf.reverse], [l])
  else ([], l :: buf)

/-- The inner read loop (source lines 182-196).  It is entered right after a
line has been appended.  A line arriving within the idle timeout of its
predecessor is stripped and appended without any pattern test (lines
194-196).  If no line arrives for `T` ms, the buffered trace is emitted
(lines 186-191) and control returns to the outer loop, which reads the next
line (with an empty buffer) via `outerStep` and re-enters this loop; at the
end of the input the timeout fires once and the outer loop then idles
forever, emitting nothing further. -/
def tailInner (T : Nat) : List TimedLine → List PyStr → List PyStr
  | [], buf => if buf ≠ [] then [joinTrace buf.reverse] else []
  | tl :: rest, buf =>
    if T ≤ tl.gap then
      (if buf ≠ [] then [joinTrace buf.reverse] else []) ++
        (let p := outerStep tl.text []
         p.1 ++ tailInner T rest p.2)
    else
      tailInner T rest (trim tl.text :: buf)

/-- Model of `LogWatcher.tail_log` (source lines 154-196) as a function from the
timed input lines to the list of emitted traces, with idle timeout `T` ms.
The file is opened at end-of-file, so the input consists of the lines
appended after tailing starts. -/
def tail_log (T : Nat) (input : List TimedLine) : List PyStr :=
  match input with
  | [] => []
  | tl :: rest =>
    let p := outerStep tl.text []
    p.1 ++ tailInner T rest p.2

/-- The idle timeout of the source, line 183 (`timeout = 2` seconds), in ms. -/
def idleTimeoutMs : Nat := 2000

/-! ### Burst decomposition (specification-side description)

For claim C10 the emitted traces are characterised against a second,
specification-style definition: split the input into maximal bursts of
lines, where a new burst begins at every line whose gap from its
predecessor reaches the idle timeout. -/

/-- Helper for `burstsOf`: `cur` is the current burst in reverse order. -/
def splitBursts (T : Nat) : List TimedLine → List TimedLine → List (List TimedLine)
  | cur, [] => [cur.reverse]
  | cur, tl :: rest =>
    if T ≤ tl.gap then cur.reverse :: splitBursts T [tl] rest
    else splitBursts T (tl :: cur) rest

/-- Split the timed input lines into maximal bursts separated by idle gaps
of at least `T` ms. -/
def burstsOf (T : Nat) : List TimedLine → List (List TimedLine)
  | [] => []
  | tl :: rest => splitBursts T [tl] rest

/-! ## Path helpers (Python `os.path`, POSIX behaviour) -/

/-- Index of the last `'/'` in `p` (Python `str.rfind('/')`), if any. -/
def rfindSlash (p : PyStr) : Option Nat :=
  match p.reverse.findIdx? (fun c => c == '/') with
  | none => none
  | some j => some (p.length - 1 - j)

/-- Python `os.path.dirname` for POSIX paths: everything up to the last
`'/'`, with trailing slashes stripped unless the result is all slashes. -/
def dirname (p : PyStr) : PyStr :=
  let i := match rfindSlash p with | none => 0 | some j => j + 1
  let head := p.take i
  if head ≠ [] ∧ ¬ (head.all (fun c => c == '/')) then
    (head.reverse.dropWhile (fun c => c == '/')).reverse
  else head

/-! ## The trace-parsing pattern (`re.search(r'in (.+?) on line (\d+)', ...)`,
source line 261)

`re.search` scans start positions left to right; at each start the literal
`in ` must match, then the lazy group `(.+?)` (at least one character, `.`
never matching a newline) is extended one character at a time until the
literal ` on line ` followed by at least one digit matches; the greedy
`(\d+)` then captures the maximal digit run.  `\d` is modelled as an ASCII
digit and the captured number by its value (the code applies `int`). -/

/-- Numeric value of a digit string (Python `int` on the captured group). -/
def digitsVal (ds : List Char) : Nat :=
  ds.foldl (fun a c => 10 * a + (c.toNat - '0'.toNat)) 0

/-- Match the regex tail ` on line (\d+)` at the current position,
returning the captured line number. -/
def matchOnLine (cs : List Char) : Option Nat :=
  if (" on line ".toList).isPrefixOf cs then
    let ds := (cs.drop 9).takeWhile Char.isDigit
    if ds = [] then none else some (digitsVal ds)
  else none

/-- Lazy expansion of `(.+?)`: `acc` holds the consumed characters in
reverse; the tail of the pattern is tried before each extension, and the
dot never matches a newline. -/
def lazyPath (acc : List Char) : List Char → Option (PyStr × Nat)
  | [] =>
    match (if acc = [] then none else matchOnLine []) with
    | some n => some (acc.reverse, n)
    | none => none
  | c :: rest =>
    match (if acc = [] then none else matchOnLine (c :: rest)) with
    | some n => some (acc.reverse, n)
    | none => if c = '\n' then none else lazyPath (c :: acc) rest

/-- Model of `re.search(r'in (.+?) on line (\d+)', s)`: the leftmost match wins;
returns the captured path (group 1) and line number (group 2). -/
def searchInOnLine : List Char → Option (PyStr × Nat)
  | [] => none
  | c :: cs =>
    match (if ("in ".toList).isPrefixOf (c :: cs) then
             lazyPath [] ((c :: cs).drop 3) else none) with
    | some r => some r
    | none => searchInOnLine cs

/-! ## External collaborators and configuration

Every subprocess invocation is abstracted by an oracle giving the outcome
of the external command; `none` models a `CalledProcessError` (non-zero
exit), `some out` the captured stdout.  `os.path.abspath` depends on the
process working directory and is likewise an oracle. -/

/-- Oracles for the external commands invoked by the enrichment code. -/
structure Externals where
  /-- Outcome of `os.path.abspath` (source line 268). -/
  abspath : PyStr → PyStr
  /-- stdout of `grep -l <search_path> <vhost_dir>/*` (source lines
  232-238); the call uses `check=False`, so it always yields a string. -/
  grepOut : PyStr → PyStr → PyStr
  /-- Outcome of `git rev-parse --show-toplevel` run in the given directory
  (source lines 276-280). -/
  gitTopLevel : PyStr → Option PyStr
  /-- Outcome of `git config --get remote.origin.url` in the given directory
  (source lines 289-293). -/
  gitRemoteUrl : PyStr → Option PyStr
  /-- Outcome of `git blame -L n,n --porcelain <rel_path>` for the given file, line
  and repository root (source lines 330-335); the relative-path
  computation feeds only this command and is absorbed into the oracle. -/
  gitBlameOut : PyStr → Nat → PyStr → Option PyStr

/-- The configuration snapshot consumed by the core (log file path is part
of the tailer input and not repeated here). -/
structure Config where
  n8n_url : Option PyStr
  enabled : Option Bool
  vhost_dir : Option PyStr

/-- Model of `self.config.get('vhost_dir', '/etc/apache2/sites-enabled')`
(source line 223). -/
def vhostDirOf (cfg : Config) : PyStr :=
  cfg.vhost_dir.getD ("/etc/apache2/sites-enabled".toList)

/-! ## Git blame parsing (`LogWatcher.get_git_blame`, source lines 314-358) -/

/-- The parsed blame record (source lines 337-342); every field is
independently optional. -/
structure BlameInfo where
  author : Option PyStr
  email : Option PyStr
  commit : Option PyStr
  summary : Option PyStr
deriving DecidableEq

/-- The line prefix `author ` (source line 345). -/
def authorPre : PyStr := 'a' :: 'u' :: 't' :: 'h' :: 'o' :: 'r' :: ' ' :: []

/-- The line prefix `author-mail ` (source line 347). -/
def mailPre : PyStr :=
  'a' :: 'u' :: 't' :: 'h' :: 'o' :: 'r' :: '-' :: 'm' :: 'a' :: 'i' :: 'l' :: ' ' :: []

/-- The line prefix `summary ` (source line 349). -/
def summaryPre : PyStr := 's' :: 'u' :: 'm' :: 'm' :: 'a' :: 'r' :: 'y' :: ' ' :: []

/-- A character stripped by Python `str.strip("<>")`. -/
def isAngle (c : Char) : Bool := c == '<' || c == '>'

/-- Python `s.strip("<>")` (source line 348): remove any leading and
trailing angle-bracket characters. -/
def stripAngles (s : PyStr) : PyStr :=
  ((s.dropWhile isAngle).reverse.dropWhile isAngle).reverse

/-- A lowercase hexadecimal digit (the character class `[a-f0-9]`). -/
def hexDigitLower (c : Char) : Bool :=
  ('a' ≤ c && c ≤ 'f') || ('0' ≤ c && c ≤ '9')

/-- Model of the test at source line 351: the line starts
with forty lowercase hexadecimal digits. -/
def isHex40 (l : PyStr) : Bool :=
  decide (40 ≤ l.length) && (l.take 40).all hexDigitLower

/-- Model of `line.split()[0][:8]` (source line 352) for a line with at least one
token: first whitespace-separated token, truncated to 8 characters. -/
def firstTokenTake8 (l : PyStr) : PyStr :=
  ((l.dropWhile isSpaceChar).takeWhile (fun c => !isSpaceChar c)).take 8

/-- One iteration of the parsing loop over the blame output lines
(source lines 344-352). -/
def blameStep (b : BlameInfo) (line : PyStr) : BlameInfo :=
  if authorPre.isPrefixOf line then { b with author := some (line.drop 7) }
  else if mailPre.isPrefixOf line then
    { b with email := some (stripAngles (line.drop 12)) }
  else if summaryPre.isPrefixOf line then { b with summary := some (line.drop 8) }
  else if isHex40 line then { b with commit := some (firstTokenTake8 line) }
  else b

/-- Split on newlines (Python `str.splitlines()` for `\n`-separated text;
a possible trailing empty line is inert in `blameStep`). -/
def splitNl : List Char → List PyStr
  | [] => [[]]
  | c :: rest =>
    if c = '\n' then [] :: splitNl rest
    else
      match splitNl rest with
      | [] => [[c]]
      | l :: ls => (c :: l) :: ls

/-- Parse the porcelain blame output (source lines 337-354). -/
def parseBlame (out : PyStr) : BlameInfo :=
  (splitNl out).foldl blameStep ⟨none, none, none, none⟩

/-- Model of `LogWatcher.get_git_blame` (source lines 314-358): `None` when the
repository root is falsy (absent or the empty string) or the blame command
exits non-zero; otherwise the parsed output. -/
def get_git_blame (ext : Externals) (file_path : PyStr) (line_number : Nat)
    (repo_path : Option PyStr) : Option BlameInfo :=
  match repo_path with
  | none => none
  | some rp =>
    if rp = [] then none
    else
      match ext.gitBlameOut file_path line_number rp with
      | none => none
      | some out => some (parseBlame out)

/-! ## The four caches (source lines 64-67)

The vhost cache is a plain dict; the three git caches are `TTLCache`s with
a one-hour TTL.  A TTL entry inserted at time `t` is unexpired at time
`now` iff `now < t + ttl` (times in seconds).  Association lists model the
dictionaries; the size bounds (1000/1000/5000) are not modelled, since
evicting other keys cannot affect the per-key get-or-compute property
verified here and the verified scenarios insert at most one entry per key. -/

/-- Model of `key in dict` followed by `dict[key]` (source lines 224-225). -/
def lookupDict {V : Type} (c : List (PyStr × V)) (k : PyStr) : Option V :=
  (c.find? (fun e => decide (e.1 = k))).map (fun e => e.2)

/-- The get-or-compute pattern on the plain dict cache (source lines
224-225 and 248): on a hit return the cached value, otherwise store and
return the computed value.  The last component counts resolver runs. -/
def dictStep {V : Type} (c : List (PyStr × V)) (k : PyStr) (compute : V) :
    V × List (PyStr × V) × Nat :=
  match lookupDict c k with
  | some v => (v, c, 0)
  | none => (compute, (k, compute) :: c, 1)

/-- Model of `key in ttlcache` followed by `ttlcache[key]`: the first entry for the
key that is unexpired at `now`. -/
def ttlLookup {V : Type} (c : List (PyStr × V × Nat)) (ttl now : Nat) (k : PyStr) :
    Option V :=
  (c.find? (fun e => decide (e.1 = k) && decide (now < e.2.2 + ttl))).map
    (fun e => e.2.1)

/-- The get-or-compute pattern on a TTL cache (source lines 272-283,
285-296, 299-303): on an unexpired hit return the cached value, otherwise
store the computed value with the current time and return it.  The last
component counts resolver runs. -/
def ttlStep {V : Type} (c : List (PyStr × V × Nat)) (ttl now : Nat) (k : PyStr)
    (compute : V) : V × List (PyStr × V × Nat) × Nat :=
  match ttlLookup c ttl now k with
  | some v => (v, c, 0)
  | none => (compute, (k, compute, now) :: c, 1)

/-- The mutable cache state of the watcher. -/
structure Caches where
  vhost_cache : List (PyStr × PyStr)
  git_root_cache : List (PyStr × Option PyStr × Nat)
  git_remote_cache : List (PyStr × PyStr × Nat)
  git_blame_cache : List (PyStr × Option BlameInfo × Nat)

/-- Per-resolver invocation counters for one run of the pipeline. -/
structure Counts where
  vhost : Nat
  root : Nat
  remote : Nat
  blame : Nat
deriving DecidableEq

/-- The all-zero counter. -/
def Counts.zero : Counts := ⟨0, 0, 0, 0⟩

/-- Pointwise sum of counters. -/
def Counts.add (a b : Counts) : Counts :=
  ⟨a.vhost + b.vhost, a.root + b.root, a.remote + b.remote, a.blame + b.blame⟩

/-! ## Vhost resolution (`LogWatcher.find_vhost_for_path`, source lines 213-249) -/

/-- The directory walk of `find_vhost_for_path` (source lines 230-246):
run grep for the current search path; a non-empty (stripped) stdout wins;
otherwise move to the parent directory, stopping when the parent equals
the current path or is the filesystem root.  The walk is structurally
recursive on a fuel bound (`dirname` never lengthens its argument, so
`length + 1` steps always reach the stopping condition; no claim depends
on the bound). -/
def vhostWalk (ext : Externals) (cfg : Config) : Nat → PyStr → PyStr
  | 0, _ => []
  | fuel + 1, search_path =>
    let found := trim (ext.grepOut (vhostDirOf cfg) search_path)
    if found ≠ [] then found
    else
      let parent := dirname search_path
      if parent = search_path ∨ parent = ['/'] then found
      else vhostWalk ext cfg fuel parent

/-- The resolver underlying the vhost cache: the whole directory walk,
started at the containing directory of the error file (source line 227). -/
def computeVhost (ext : Externals) (cfg : Config) (file_path : PyStr) : PyStr :=
  vhostWalk ext cfg (file_path.length + 1) (dirname file_path)

/-- Model of `LogWatcher.find_vhost_for_path` (source lines 213-249), acting on the
vhost-cache component of the state: forever-cached get-or-compute keyed by
the original file path; a failed search is the empty string, stored like
any other result.  The last component counts walks performed. -/
def find_vhost_for_path (ext : Externals) (cfg : Config)
    (vc : List (PyStr × PyStr)) (file_path : PyStr) :
    PyStr × List (PyStr × PyStr) × Nat :=
  dictStep vc file_path (computeVhost ext cfg file_path)

/-! ## Enrichment (`LogWatcher.get_project_info`, source lines 251-312) -/

/-- The resolver underlying the git-root cache (source lines 275-282):
stripped stdout of `git rev-parse --show-toplevel`, `None` on non-zero
exit. -/
def computeGitRoot (ext : Externals) (dir_path : PyStr) : Option PyStr :=
  (ext.gitTopLevel dir_path).map trim

/-- The resolver underlying the git-remote cache (source lines 288-295):
stripped stdout of `git config --get remote.origin.url`, with an empty
result or a non-zero exit mapped to the literal `unknown`. -/
def computeGitRemote (ext : Externals) (dir_path : PyStr) : PyStr :=
  match ext.gitRemoteUrl dir_path with
  | none => "unknown".toList
  | some out => if trim out = [] then ("unknown".toList) else trim out

/-- The blame cache key `f"(file_path):(line_number)"` (source line 298). -/
def blameKey (file_path : PyStr) (ln : Nat) : PyStr :=
  file_path ++ (':' :: (Nat.repr ln).toList)

/-- The enriched record returned by `get_project_info`
(source lines 305-312). -/
structure ProjectInfo where
  file : PyStr
  line : Nat
  vhost : Option PyStr
  git_remote : PyStr
  error_line : PyStr
  blame : Option BlameInfo

/-- Model of `LogWatcher.get_project_info` (source lines 251-312): extract file and
line from the first `in <path> on line <n>` occurrence (returning `None`
when absent), then resolve vhost, git root, git remote and blame through
their caches at time `now` (seconds).  Returns the result, the updated
caches, and the per-resolver invocation counts. -/
def get_project_info (ext : Externals) (cfg : Config) (st : Caches) (now : Nat)
    (error_line : PyStr) : Option ProjectInfo × Caches × Counts :=
  match searchInOnLine error_line with
  | none => (none, st, Counts.zero)
  | some (fp, ln) =>
    let file_path := trim fp
    let dir_path := ext.abspath (dirname file_path)
    let v := find_vhost_for_path ext cfg st.vhost_cache file_path
    let r := ttlStep st.git_root_cache 3600 now dir_path (computeGitRoot ext dir_path)
    let m := ttlStep st.git_remote_cache 3600 now dir_path (computeGitRemote ext dir_path)
    let b := ttlStep st.git_blame_cache 3600 now (blameKey file_path ln)
               (get_git_blame ext file_path ln r.1)
    (some { file := file_path
            line := ln
            vhost := if v.1 = [] then none else some (trim v.1)
            git_remote := m.1
            error_line := trim error_line
            blame := b.1 },
     { vhost_cache := v.2.1
       git_root_cache := r.2.1
       git_remote_cache := m.2.1
       git_blame_cache := b.2.1 },
     ⟨v.2.2, r.2.2, m.2.2, b.2.2⟩)

/-! ## The sink (`LogWatcher.send_to_n8n`, source lines 131-152) and the
orchestrator (`LogWatcher.run`, source lines 198-211) -/

/-- One outbound HTTP POST: target URL and the JSON payload
`error_line` / `error_detail` (a `none` detail is serialised as JSON
`null`). -/
structure Post where
  url : PyStr
  error_line : PyStr
  error_detail : Option ProjectInfo

/-- Model of `LogWatcher.send_to_n8n` (source lines 131-152): if the configured URL
is falsy (absent or empty) nothing happens; otherwise the trace is
enriched and a single POST is issued carrying the (possibly `none`)
detail.  Returns the issued post (if any), the updated caches, the number
of `get_project_info` invocations and the resolver counts. -/
def send_to_n8n (ext : Externals) (cfg : Config) (st : Caches) (now : Nat)
    (error_trace : PyStr) : Option Post × Caches × Nat × Counts :=
  match cfg.n8n_url with
  | none => (none, st, 0, Counts.zero)
  | some url =>
    if url = [] then (none, st, 0, Counts.zero)
    else
      let r := get_project_info ext cfg st now error_trace
      (some ⟨url, error_trace, r.1⟩, r.2.1, 1, r.2.2)

/-- One orchestrator iteration's input: the completed trace yielded by the
tailer together with the configuration snapshot in force when it is
handled (the code may reload the configuration between traces,
source lines 206-207) and the current time. -/
structure RunItem where
  now : Nat
  cfg : Config
  trace : PyStr

/-- Model of `LogWatcher.run` (source lines 198-211): for each completed trace, if
the snapshot's enabled flag is not `True` the trace is discarded
(source lines 208-210), otherwise it is passed to `send_to_n8n`.  Returns
the issued posts in order, the final caches, the number of
`get_project_info` invocations and the summed resolver counts. -/
def run (ext : Externals) : List RunItem → Caches → List Post × Caches × Nat × Counts
  | [], st => ([], st, 0, Counts.zero)
  | it :: rest, st =>
    if it.cfg.enabled = some true then
      let s := send_to_n8n ext it.cfg st it.now it.trace
      let r := run ext rest s.2.1
      (s.1.toList ++ r.1, r.2.1, s.2.2.1 + r.2.2.1, Counts.add s.2.2.2 r.2.2.2)
    else
      run ext rest st

/-! ## Lemmas about the tailing state machine -/

/-- The outer loop reads every line with an empty buffer, so its
error-start flush branch cannot fire: the line is stripped and appended. -/
theorem outerStep_nil (line : PyStr) : outerStep line [] = ([], [trim line]) := by
  simp [outerStep]

/-- Unfolding of `tail_log` on a non-empty input. -/
theorem tail_log_cons (T : Nat) (tl : TimedLine) (rest : List TimedLine) :
    tail_log T (tl :: rest) = tailInner T rest [trim tl.text] := by
  simp [tail_log, outerStep_nil]

/-- The inner loop with a non-empty buffer first emits the buffer extended
by the lines arriving within the timeout, then restarts the machine on the
remaining input. -/
theorem tailInner_run (T : Nat) (ts : List TimedLine) :
    ∀ buf : List PyStr, buf ≠ [] →
      tailInner T ts buf =
        joinTrace (buf.reverse ++
            (ts.takeWhile (fun x => decide (x.gap < T))).map (fun x => trim x.text)) ::
          tail_log T (ts.dropWhile (fun x => decide (x.gap < T))) := by
  induction ts with
  | nil => intro buf hbuf; simp [tailInner, hbuf, tail_log]
  | cons tl rest ih =>
    intro buf hbuf
    by_cases hg : T ≤ tl.gap
    · have hfast : ¬ tl.gap < T := by omega
      simp only [tailInner, if_pos hg, hbuf, if_pos, ne_eq, not_false_iff,
        List.takeWhile_cons, List.dropWhile_cons, decide_eq_true_eq, hfast,
        if_neg, ite_false, List.map_nil, List.append_nil]
      simp [tail_log, hbuf]
    · have hfast : tl.gap < T := by omega
      have hne : trim tl.text :: buf ≠ [] := by simp
      simp only [tailInner, if_neg hg, ih _ hne, List.takeWhile_cons,
        List.dropWhile_cons, decide_eq_true_eq, hfast, if_pos, ite_true,
        List.map_cons, List.reverse_cons, List.append_assoc,
        List.singleton_append]

/-- The inner loop, started with the reversed stripped lines of `cur` as
buffer, emits exactly the bursts of the remaining input (with `cur` as the
open burst), each stripped and joined. -/
theorem tailInner_spec (T : Nat) (ts : List TimedLine) :
    ∀ cur : List TimedLine, cur ≠ [] →
      tailInner T ts ((cur.map (fun tl => trim tl.text))) =
        (splitBursts T cur ts).map
          (fun b => joinTrace (b.map (fun tl => trim tl.text))) := by
  induction ts with
  | nil =>
    intro cur hcur
    simp [tailInner, splitBursts, hcur, List.map_reverse]
  | cons tl rest ih =>
    intro cur hcur
    by_cases hg : T ≤ tl.gap
    · have h1 : tailInner T rest [trim tl.text] =
          (splitBursts T [tl] rest).map
            (fun b => joinTrace (b.map (fun tl => trim tl.text))) := by
        simpa using ih [tl] (by simp)
      simp [tailInner, if_pos hg, hcur, outerStep_nil, splitBursts, h1,
        List.map_reverse]
    · have h1 := ih (tl :: cur) (by simp)
      simp only [List.map_cons] at h1
      simp [tailInner, if_neg hg, splitBursts, hg, h1]

/-- The emitted traces of `tail_log` are exactly the bursts of the input
(maximal runs of lines separated by idle gaps below the timeout), each
line stripped of surrounding whitespace and joined with single newline
characters. -/
theorem tail_log_eq_bursts (T : Nat) (input : List TimedLine) :
    tail_log T input =
      (burstsOf T input).map (fun b => joinTrace (b.map (fun tl => trim tl.text))) := by
  cases input with
  | nil => rfl
  | cons tl rest =>
    have h1 := tailInner_spec T rest [tl] (by simp)
    simp only [List.map_cons, List.map_nil] at h1
    simp [tail_log_cons, burstsOf, h1]

/-- When every line of `ts` arrives within the timeout, the whole input is
a single burst. -/
theorem splitBursts_all_lt (T : Nat) (ts : List TimedLine) :
    ∀ cur : List TimedLine, (∀ x ∈ ts, x.gap < T) →
      splitBursts T cur ts = [cur.reverse ++ ts] := by
  induction ts with
  | nil => intro cur _; simp [splitBursts]
  | cons tl rest ih =>
    intro cur h
    have hg : ¬ T ≤ tl.gap := by
      have := h tl (by simp)
      omega
    have h1 := ih (tl :: cur) (fun x hx => h x (by simp [hx]))
    simp [splitBursts, if_neg hg, h1]

/-! ## Claim C10 -/

/-- C10: every line appended to a trace buffer is first stripped of
leading and trailing whitespace, and an emitted trace is exactly the
stripped lines of one burst joined with a single newline character, so
emitted traces never retain the original indentation or line endings. -/
theorem C10_traces_are_trimmed_joined_bursts (input : List TimedLine) :
    tail_log idleTimeoutMs input =
      (burstsOf idleTimeoutMs input).map
        (fun b => joinTrace (b.map (fun tl => trim tl.text))) :=
  tail_log_eq_bursts idleTimeoutMs input

/-! ## Claim C1 -/

/-- C1 counterexample: a line that does not match the error-start pattern
and arrives while no trace buffer is open (here: the very first line) is
not dropped — it is emitted verbatim as a trace of its own once the idle
timeout fires. -/
theorem C1_counterexample :
    errorStartPattern (trim ("stray line".toList)) = false ∧
    tail_log idleTimeoutMs [⟨0, "stray line".toList⟩] = ["stray line".toList] := by
  decide

/-- C1 (amended): a line read while no trace buffer is open — whether or
not it matches the error-start pattern — is appended to a fresh buffer and
appears as the first line of the next emitted trace, which consists of it
and the following lines arriving within the idle timeout. -/
theorem C1_amended_line_kept (tl : TimedLine) (rest : List TimedLine)
    (hnm : errorStartPattern (trim tl.text) = false) :
    tail_log idleTimeoutMs (tl :: rest) =
      joinTrace ((tl :: rest.takeWhile (fun x => decide (x.gap < idleTimeoutMs))).map
          (fun x => trim x.text)) ::
        tail_log idleTimeoutMs (rest.dropWhile (fun x => decide (x.gap < idleTimeoutMs))) := by
  rw [tail_log_cons, tailInner_run idleTimeoutMs rest [trim tl.text] (by simp)]
  simp

/-- Witness for the amended C1 at a concrete input. -/
theorem C1_amended_line_kept_witness :
    tail_log idleTimeoutMs [⟨0, "stray line".toList⟩, ⟨100, "again".toList⟩] =
      joinTrace (((⟨0, "stray line".toList⟩ : TimedLine) ::
          List.takeWhile (fun x => decide (x.gap < idleTimeoutMs))
            [⟨100, "again".toList⟩]).map (fun x => trim x.text)) ::
        tail_log idleTimeoutMs
          (List.dropWhile (fun x => decide (x.gap < idleTimeoutMs))
            [⟨100, "again".toList⟩]) :=
  C1_amended_line_kept ⟨0, "stray line".toList⟩ [⟨100, "again".toList⟩] (by decide)

/-! ## Claim C2 -/

/-- C2: executing the code on a marker line that arrives half a second
after a previous marker line shows that the inner read loop appends it
without flushing: one trace is emitted, with a line matching the
error-start pattern in its second position.  (The flush-on-marker branch
of the outer loop can never fire, because the outer loop always runs with
an empty buffer.) -/
theorem C2_code_behavior :
    errorStartPattern (trim ("PHP Warning: second".toList)) = true ∧
    tail_log idleTimeoutMs
        [⟨0, "PHP Warning: first".toList⟩, ⟨500, "PHP Warning: second".toList⟩] =
      [("PHP Warning: first".toList) ++ '\n' :: ("PHP Warning: second".toList)] := by
  decide

/-! ## Claim C3 -/

/-- C3: for an input of exactly one error-start marker line followed by N
non-marker lines, each arriving within the idle timeout of its
predecessor, exactly one trace is emitted, containing all N+1 (stripped)
lines in their original order. -/
theorem C3_one_trace_in_order (t0 : TimedLine) (rest : List TimedLine)
    (hm : errorStartPattern (trim t0.text) = true)
    (hnm : ∀ x ∈ rest, errorStartPattern (trim x.text) = false)
    (hfast : ∀ x ∈ rest, x.gap < idleTimeoutMs) :
    tail_log idleTimeoutMs (t0 :: rest) =
      [joinTrace ((t0 :: rest).map (fun tl => trim tl.text))] := by
  rw [tail_log_eq_bursts]
  have h1 : burstsOf idleTimeoutMs (t0 :: rest) = [t0 :: rest] := by
    simp [burstsOf, splitBursts_all_lt idleTimeoutMs rest [t0] hfast]
  simp [h1]

/-- Witness for C3: one marker and two fast non-marker lines give the
single three-line trace. -/
theorem C3_one_trace_in_order_witness :
    tail_log idleTimeoutMs
        [⟨0, "PHP Warning: x".toList⟩, ⟨500, "trace a".toList⟩, ⟨1999, "trace b".toList⟩] =
      [joinTrace (((⟨0, "PHP Warning: x".toList⟩ : TimedLine) ::
          [(⟨500, "trace a".toList⟩ : TimedLine), ⟨1999, "trace b".toList⟩]).map
            (fun tl => trim tl.text))] :=
  C3_one_trace_in_order ⟨0, "PHP Warning: x".toList⟩
    [⟨500, "trace a".toList⟩, ⟨1999, "trace b".toList⟩]
    (by decide) (by decide) (by decide)

/-! ## Claim C4 -/

/-- C4: when a trace buffer is open (a marker line has been buffered) and
no further line arrives within the idle timeout — either no line ever
arrives, or the next line's gap reaches the timeout — the buffered trace
is flushed as a completed trace, regardless of whether any further marker
appears. -/
theorem C4_idle_timeout_flush (T : Nat) (buf : List PyStr) (tl : TimedLine)
    (rest : List TimedLine) (hbuf : buf ≠ [])
    (hmarker : ∃ m ∈ buf, errorStartPattern m = true) (hgap : T ≤ tl.gap) :
    tailInner T [] buf = [joinTrace buf.reverse] ∧
    tailInner T (tl :: rest) buf = joinTrace buf.reverse :: tail_log T (tl :: rest) := by
  constructor
  · simp [tailInner, hbuf]
  · simp [tailInner, if_pos hgap, hbuf, tail_log]

/-- Witness for C4 at a concrete buffered marker line and a late next
line. -/
theorem C4_idle_timeout_flush_witness :
    tailInner 2000 [] ["PHP Warning: x".toList] =
      [joinTrace (["PHP Warning: x".toList] : List PyStr).reverse] ∧
    tailInner 2000 [⟨2000, "late".toList⟩] ["PHP Warning: x".toList] =
      joinTrace (["PHP Warning: x".toList] : List PyStr).reverse ::
        tail_log 2000 [⟨2000, "late".toList⟩] :=
  C4_idle_timeout_flush 2000 ["PHP Warning: x".toList] ⟨2000, "late".toList⟩ []
    (by decide) ⟨"PHP Warning: x".toList, by simp, by decide⟩ (by decide)

/-! ## Lemmas about enrichment -/

/-- When the pattern matches, the returned record carries the stripped
captured path and the captured line number. -/
theorem get_project_info_fileline (ext : Externals) (cfg : Config) (st : Caches)
    (now : Nat) (trace p : PyStr) (n : Nat) (hs : searchInOnLine trace = some (p, n)) :
    ((get_project_info ext cfg st now trace).1).map ProjectInfo.file = some (trim p) ∧
    ((get_project_info ext cfg st now trace).1).map ProjectInfo.line = some n := by
  simp [get_project_info, hs]

/-- When the pattern is absent, enrichment returns `none` and touches
nothing. -/
theorem get_project_info_none (ext : Externals) (cfg : Config) (st : Caches)
    (now : Nat) (trace : PyStr) (hs : searchInOnLine trace = none) :
    get_project_info ext cfg st now trace = (none, st, Counts.zero) := by
  simp [get_project_info, hs]

/-! ## Concrete fixtures used by witnesses -/

/-- A concrete oracle assignment: identity absolute paths and every
external command failing or empty. -/
def extFix : Externals :=
  { abspath := fun s => s
    grepOut := fun _ _ => []
    gitTopLevel := fun _ => none
    gitRemoteUrl := fun _ => none
    gitBlameOut := fun _ _ _ => none }

/-- The empty cache state. -/
def stEmpty : Caches := ⟨[], [], [], []⟩

/-- A concrete enabled configuration. -/
def cfgFix : Config := ⟨some ("http://n8n.local/hook".toList), some true, none⟩

/-- The example trace of the specification. -/
def exTrace : PyStr :=
  "PHP Fatal error: foo in /var/www/app/index.php on line 42".toList

/-! ## Claim C5 -/

/-- C5: on the specification's example trace, enrichment returns a record
whose file is `/var/www/app/index.php` and whose line is `42`; and in
general, whenever the search for `in <path> on line <integer>` (leftmost
match, as performed by the code) succeeds with captures `p` and `n`, the
returned record's file is the stripped `p` and its line is `n`. -/
theorem C5_file_and_line_extracted (ext : Externals) (cfg : Config) (st : Caches)
    (now : Nat) (trace p : PyStr) (n : Nat)
    (hs : searchInOnLine trace = some (p, n)) :
    (((get_project_info ext cfg st now exTrace).1).map ProjectInfo.file =
        some ("/var/www/app/index.php".toList) ∧
      ((get_project_info ext cfg st now exTrace).1).map ProjectInfo.line = some 42) ∧
    ((get_project_info ext cfg st now trace).1).map ProjectInfo.file = some (trim p) ∧
    ((get_project_info ext cfg st now trace).1).map ProjectInfo.line = some n := by
  refine ⟨?_, get_project_info_fileline ext cfg st now trace p n hs⟩
  have hse : searchInOnLine exTrace = some ("/var/www/app/index.php".toList, 42) := by
    decide
  have h := get_project_info_fileline ext cfg st now exTrace _ _ hse
  have ht : trim ("/var/www/app/index.php".toList) = "/var/www/app/index.php".toList := by
    decide
  rw [ht] at h
  exact h

/-- Witness for C5 at concrete oracles, caches and trace. -/
theorem C5_file_and_line_extracted_witness :
    (((get_project_info extFix cfgFix stEmpty 0 exTrace).1).map ProjectInfo.file =
        some ("/var/www/app/index.php".toList) ∧
      ((get_project_info extFix cfgFix stEmpty 0 exTrace).1).map ProjectInfo.line =
        some 42) ∧
    ((get_project_info extFix cfgFix stEmpty 0 exTrace).1).map ProjectInfo.file =
      some (trim ("/var/www/app/index.php".toList)) ∧
    ((get_project_info extFix cfgFix stEmpty 0 exTrace).1).map ProjectInfo.line =
      some 42 :=
  C5_file_and_line_extracted extFix cfgFix stEmpty 0 exTrace
    ("/var/www/app/index.php".toList) 42 (by decide)

/-! ## Claim C6 -/

/-- C6: for a trace without the `in <path> on line <integer>` pattern,
enrichment returns `none`, and the sink still issues the POST for that
trace, carrying a `none` detail (serialised as JSON `null`): the trace is
forwarded, not discarded. -/
theorem C6_null_detail_still_posted (ext : Externals) (cfg : Config) (st : Caches)
    (now : Nat) (trace url : PyStr) (hs : searchInOnLine trace = none)
    (hurl : cfg.n8n_url = some url) (hne : url ≠ []) :
    (get_project_info ext cfg st now trace).1 = none ∧
    (send_to_n8n ext cfg st now trace).1 = some ⟨url, trace, none⟩ := by
  have h := get_project_info_none ext cfg st now trace hs
  constructor
  · rw [h]
  · simp [send_to_n8n, hurl, hne, h]

/-- Witness for C6 at a concrete patternless trace. -/
theorem C6_null_detail_still_posted_witness :
    (get_project_info extFix cfgFix stEmpty 0 ("segfault somewhere".toList)).1 = none ∧
    (send_to_n8n extFix cfgFix stEmpty 0 ("segfault somewhere".toList)).1 =
      some ⟨"http://n8n.local/hook".toList, "segfault somewhere".toList, none⟩ :=
  C6_null_detail_still_posted extFix cfgFix stEmpty 0 ("segfault somewhere".toList)
    ("http://n8n.local/hook".toList) (by decide) (by decide) (by decide)

/-! ## Claim C9 -/

/-- C9: while the configuration snapshot's enabled flag is not `True`
(false, absent, or never set), the orchestrator issues no POST, never
invokes enrichment or any resolver, and leaves the caches untouched, for
any number of completed traces: each trace is discarded. -/
theorem C9_disabled_discards_all (ext : Externals) (items : List RunItem)
    (st : Caches) (hdis : ∀ it ∈ items, it.cfg.enabled ≠ some true) :
    run ext items st = ([], st, 0, Counts.zero) := by
  induction items with
  | nil => rfl
  | cons it rest ih =>
    have h1 : ¬ it.cfg.enabled = some true := hdis it (by simp)
    have h2 := ih (fun x hx => hdis x (by simp [hx]))
    simp [run, h1, h2]

/-- Witness for C9: two traces under a disabled and an absent flag produce
no post, no enrichment call, no resolver call and unchanged caches. -/
theorem C9_disabled_discards_all_witness :
    run extFix
        [⟨0, ⟨some ("http://n8n.local/hook".toList), some false, none⟩,
            "PHP Warning: a".toList⟩,
         ⟨5, ⟨some ("http://n8n.local/hook".toList), none, none⟩,
            "PHP Warning: b".toList⟩] stEmpty =
      ([], stEmpty, 0, Counts.zero) :=
  C9_disabled_discards_all extFix _ stEmpty (by
    intro it hit
    rcases List.mem_cons.mp hit with h | h2
    · subst h; simp
    · rcases List.mem_cons.mp h2 with h | h
      · subst h; simp
      · simp at h)

/-! ## Lemmas about the caches -/

/-- If `find?` under predicate `p` yields `a`, and `q` holds at `a` and
implies `p` on all list elements, then `find?` under `q` yields the same
`a`. -/
theorem find?_congr_first {α : Type} (p q : α → Bool) (l : List α) (a : α)
    (hfind : l.find? p = some a) (hqa : q a = true)
    (himp : ∀ x ∈ l, q x = true → p x = true) : l.find? q = some a := by
  induction l with
  | nil => simp at hfind
  | cons x t ih =>
    by_cases hpx : p x = true
    · rw [List.find?_cons_of_pos _ hpx] at hfind
      obtain rfl : x = a := Option.some.inj hfind
      exact List.find?_cons_of_pos _ hqa
    · rw [List.find?_cons_of_neg _ hpx] at hfind
      have hqx : ¬ q x = true := fun hq => hpx (himp x (by simp) hq)
      rw [List.find?_cons_of_neg _ hqx]
      exact ih hfind (fun y hy hqy => himp y (by simp [hy]) hqy)

/-- A second get-or-compute on the plain dict cache, for the same key, is
a hit: it returns the first result, leaves the cache unchanged and runs no
resolver — whatever the second computation would produce. -/
theorem dictStep_stable {V : Type} (c : List (PyStr × V)) (k : PyStr) (v w : V) :
    dictStep ((dictStep c k v).2.1) k w =
      ((dictStep c k v).1, (dictStep c k v).2.1, 0) := by
  cases hf : c.find? (fun e => decide (e.1 = k)) with
  | none =>
    have h1 : dictStep c k v = (v, (k, v) :: c, 1) := by
      unfold dictStep lookupDict
      rw [hf]
      rfl
    have h2 : lookupDict ((k, v) :: c) k = some v := by
      unfold lookupDict
      rw [List.find?_cons_of_pos _ (by simp)]
      rfl
    rw [h1]
    unfold dictStep
    rw [h2]
  | some e =>
    have h1 : dictStep c k v = (e.2, c, 0) := by
      unfold dictStep lookupDict
      rw [hf]
      rfl
    have h2 : lookupDict c k = some e.2 := by
      unfold lookupDict
      rw [hf]
      rfl
    rw [h1]
    unfold dictStep
    rw [h2]

/-- A second get-or-compute on a TTL cache, for the same key, while the
first lookup's entry has not expired in between, is a hit: same result,
unchanged cache, no resolver run — whatever the second computation would
produce. -/
theorem ttlStep_stable {V : Type} (c : List (PyStr × V × Nat)) (ttl t1 t2 : Nat)
    (k : PyStr) (v w : V) (h12 : t1 ≤ t2) (hlt : t2 < t1 + ttl)
    (hpres : ∀ e ∈ c, t1 < e.2.2 + ttl → t2 < e.2.2 + ttl) :
    ttlStep ((ttlStep c ttl t1 k v).2.1) ttl t2 k w =
      ((ttlStep c ttl t1 k v).1, (ttlStep c ttl t1 k v).2.1, 0) := by
  cases hf : c.find? (fun e => decide (e.1 = k) && decide (t1 < e.2.2 + ttl)) with
  | none =>
    have h1 : ttlStep c ttl t1 k v = (v, (k, v, t1) :: c, 1) := by
      unfold ttlStep ttlLookup
      rw [hf]
      rfl
    have h2 : ttlLookup ((k, v, t1) :: c) ttl t2 k = some v := by
      unfold ttlLookup
      rw [List.find?_cons_of_pos _ (by simp; omega)]
      rfl
    rw [h1]
    unfold ttlStep
    rw [h2]
  | some e =>
    have hpe := List.find?_some hf
    have hme := List.mem_of_find?_eq_some hf
    simp only [Bool.and_eq_true, decide_eq_true_eq] at hpe
    have h1 : ttlStep c ttl t1 k v = (e.2.1, c, 0) := by
      unfold ttlStep ttlLookup
      rw [hf]
      rfl
    have h2 : c.find? (fun e2 => decide (e2.1 = k) && decide (t2 < e2.2.2 + ttl)) =
        some e := by
      refine find?_congr_first _ _ _ _ hf ?_ ?_
      · simp only [Bool.and_eq_true, decide_eq_true_eq]
        exact ⟨hpe.1, hpres e hme hpe.2⟩
      · intro x hx hqx
        simp only [Bool.and_eq_true, decide_eq_true_eq] at hqx ⊢
        exact ⟨hqx.1, by omega⟩
    have h3 : ttlLookup c ttl t2 k = some e.2.1 := by
      unfold ttlLookup
      rw [h2]
      rfl
    rw [h1]
    unfold ttlStep
    rw [h3]

/-- One dict get-or-compute runs the resolver at most once. -/
theorem dictStep_count_le {V : Type} (c : List (PyStr × V)) (k : PyStr) (v : V) :
    (dictStep c k v).2.2 ≤ 1 := by
  unfold dictStep
  cases lookupDict c k <;> simp

/-- One TTL get-or-compute runs the resolver at most once. -/
theorem ttlStep_count_le {V : Type} (c : List (PyStr × V × Nat)) (ttl now : Nat)
    (k : PyStr) (v : V) : (ttlStep c ttl now k v).2.2 ≤ 1 := by
  unfold ttlStep
  cases ttlLookup c ttl now k <;> simp

/-! ## Claim C7 -/

/-- C7: enriching the same trace twice — the second time at most the TTL
later, with no cache entry expiring in between — returns the identical
result, performs no resolver invocation at all on the second pass (for any
of the four caches: vhost, git root, git remote, git blame), leaves the
caches unchanged, and performs at most one invocation per resolver on the
first pass; this holds for arbitrary oracle outcomes, so a failed
resolution (a `none` / empty / `unknown` sentinel) is cached and replayed
exactly like a successful one. -/
theorem C7_cache_get_or_compute (ext : Externals) (cfg : Config) (st : Caches)
    (t1 t2 : Nat) (line : PyStr) (h12 : t1 ≤ t2) (hlt : t2 < t1 + 3600)
    (hroot : ∀ e ∈ st.git_root_cache, t1 < e.2.2 + 3600 → t2 < e.2.2 + 3600)
    (hremote : ∀ e ∈ st.git_remote_cache, t1 < e.2.2 + 3600 → t2 < e.2.2 + 3600)
    (hblame : ∀ e ∈ st.git_blame_cache, t1 < e.2.2 + 3600 → t2 < e.2.2 + 3600) :
    (get_project_info ext cfg ((get_project_info ext cfg st t1 line).2.1) t2 line).1 =
        (get_project_info ext cfg st t1 line).1 ∧
    (get_project_info ext cfg ((get_project_info ext cfg st t1 line).2.1) t2 line).2.1 =
        (get_project_info ext cfg st t1 line).2.1 ∧
    (get_project_info ext cfg ((get_project_info ext cfg st t1 line).2.1) t2 line).2.2 =
        Counts.zero ∧
    (get_project_info ext cfg st t1 line).2.2.vhost ≤ 1 ∧
    (get_project_info ext cfg st t1 line).2.2.root ≤ 1 ∧
    (get_project_info ext cfg st t1 line).2.2.remote ≤ 1 ∧
    (get_project_info ext cfg st t1 line).2.2.blame ≤ 1 := by
  cases hs : searchInOnLine line with
  | none => simp [get_project_info, hs, Counts.zero]
  | some r =>
    obtain ⟨fp, ln⟩ := r
    simp only [get_project_info, hs, find_vhost_for_path]
    rw [dictStep_stable st.vhost_cache (trim fp),
      ttlStep_stable st.git_root_cache 3600 t1 t2 _ _ _ h12 hlt hroot,
      ttlStep_stable st.git_remote_cache 3600 t1 t2 _ _ _ h12 hlt hremote,
      ttlStep_stable st.git_blame_cache 3600 t1 t2 _ _ _ h12 hlt hblame]
    refine ⟨rfl, rfl, rfl, dictStep_count_le _ _ _, ttlStep_count_le _ _ _ _ _,
      ttlStep_count_le _ _ _ _ _, ttlStep_count_le _ _ _ _ _⟩

/-- Witness for C7 at concrete oracles, empty caches and the example
trace (all resolvers fail there, exercising the negative-result caching). -/
theorem C7_cache_get_or_compute_witness :
    (get_project_info extFix cfgFix
        ((get_project_info extFix cfgFix stEmpty 0 exTrace).2.1) 10 exTrace).1 =
        (get_project_info extFix cfgFix stEmpty 0 exTrace).1 ∧
    (get_project_info extFix cfgFix
        ((get_project_info extFix cfgFix stEmpty 0 exTrace).2.1) 10 exTrace).2.1 =
        (get_project_info extFix cfgFix stEmpty 0 exTrace).2.1 ∧
    (get_project_info extFix cfgFix
        ((get_project_info extFix cfgFix stEmpty 0 exTrace).2.1) 10 exTrace).2.2 =
        Counts.zero ∧
    (get_project_info extFix cfgFix stEmpty 0 exTrace).2.2.vhost ≤ 1 ∧
    (get_project_info extFix cfgFix stEmpty 0 exTrace).2.2.root ≤ 1 ∧
    (get_project_info extFix cfgFix stEmpty 0 exTrace).2.2.remote ≤ 1 ∧
    (get_project_info extFix cfgFix stEmpty 0 exTrace).2.2.blame ≤ 1 :=
  C7_cache_get_or_compute extFix cfgFix stEmpty 0 10 exTrace (by decide) (by decide)
    (by intro e he; simp [stEmpty] at he) (by intro e he; simp [stEmpty] at he)
    (by intro e he; simp [stEmpty] at he)

/-! ## Lemmas about blame parsing -/

/-- A hexadecimal digit is not whitespace. -/
theorem hex_not_space (c : Char) (hc : hexDigitLower c = true) :
    isSpaceChar c = false := by
  by_contra hns
  rw [Bool.not_eq_false] at hns
  simp only [isSpaceChar, Bool.or_eq_true, beq_iff_eq] at hns
  rcases hns with ((((rfl | rfl) | rfl) | rfl) | rfl) | rfl <;>
    exact absurd hc (by decide)

/-- Unpacking of the forty-hex-digit test. -/
theorem isHex40_parts (h : PyStr) (hh : isHex40 h = true) :
    40 ≤ h.length ∧ (h.take 40).all hexDigitLower = true := by
  unfold isHex40 at hh
  simp only [Bool.and_eq_true, decide_eq_true_eq] at hh
  exact hh

/-- Every prefix of a list whose elements all satisfy `p` satisfies `p`. -/
theorem all_take_of_all {α : Type} (p : α → Bool) (l : List α) (n : Nat)
    (hall : l.all p = true) : (l.take n).all p = true := by
  rw [List.all_eq_true] at hall ⊢
  intro x hx
  exact hall x (List.mem_of_mem_take hx)

/-- The first eight characters of a forty-hex-digit line are hex digits. -/
theorem take8_all_hex (h : PyStr) (hh : isHex40 h = true) :
    (h.take 8).all hexDigitLower = true := by
  obtain ⟨_, hall⟩ := isHex40_parts h hh
  have he : h.take 8 = (h.take 40).take 8 := by
    rw [List.take_take]
    norm_num
  rw [he]
  exact all_take_of_all _ _ _ hall

/-- Truncated `takeWhile` agrees with truncation when the truncated part
satisfies the predicate throughout. -/
theorem take_takeWhile_all {α : Type} (p : α → Bool) :
    ∀ (k : Nat) (l : List α), (l.take k).all p = true →
      (l.takeWhile p).take k = l.take k := by
  intro k
  induction k with
  | zero => intro l _; simp
  | succ n ih =>
    intro l hall
    cases l with
    | nil => simp
    | cons c t =>
      rw [List.take_succ_cons, List.all_cons, Bool.and_eq_true] at hall
      obtain ⟨hc, ht⟩ := hall
      rw [List.takeWhile_cons_of_pos hc, List.take_succ_cons, List.take_succ_cons,
        ih t ht]

/-- On a line opening with forty hex digits, `line.split()[0][:8]` is just
the first eight characters. -/
theorem firstTokenTake8_hex (h : PyStr) (hh : isHex40 h = true) :
    firstTokenTake8 h = h.take 8 := by
  obtain ⟨hlen, hall⟩ := isHex40_parts h hh
  cases h with
  | nil => simp at hlen
  | cons c t =>
    have ht40 : (c :: t).take 40 = c :: t.take 39 := rfl
    rw [ht40, List.all_cons, Bool.and_eq_true] at hall
    have hcs : isSpaceChar c = false := hex_not_space c hall.1
    have h8 : ((c :: t).take 8).all (fun x => !isSpaceChar x) = true := by
      have hx := take8_all_hex (c :: t) hh
      rw [List.all_eq_true] at hx ⊢
      intro x hmem
      rw [hex_not_space x (hx x hmem)]
      rfl
    unfold firstTokenTake8
    rw [List.dropWhile_cons_of_neg (by simp [hcs])]
    exact take_takeWhile_all _ 8 (c :: t) h8

/-- A forty-hex-digit line exposes its first two characters. -/
theorem isHex40_two (h : PyStr) (hh : isHex40 h = true) :
    ∃ c0 c1 t, h = c0 :: c1 :: t ∧ hexDigitLower c0 = true ∧
      hexDigitLower c1 = true := by
  obtain ⟨hlen, hall⟩ := isHex40_parts h hh
  cases h with
  | nil => simp at hlen
  | cons c0 t0 =>
    cases t0 with
    | nil => simp at hlen
    | cons c1 t =>
      have ht40 : (c0 :: c1 :: t).take 40 = c0 :: c1 :: t.take 38 := rfl
      rw [ht40, List.all_cons, List.all_cons, Bool.and_eq_true, Bool.and_eq_true]
        at hall
      exact ⟨c0, c1, t, rfl, hall.1, hall.2.1⟩

/-- A forty-hex-digit line does not carry the `author ` prefix (its second
character is a hex digit, not `u`). -/
theorem hex_not_authorPre (h : PyStr) (hh : isHex40 h = true) :
    authorPre.isPrefixOf h = false := by
  obtain ⟨c0, c1, t, rfl, _, h1⟩ := isHex40_two h hh
  have hu : ('u' == c1) = false := by
    rw [beq_eq_false_iff_ne]
    intro e
    rw [← e] at h1
    exact absurd h1 (by decide)
  show (('a' == c0) && (('u' == c1) && List.isPrefixOf _ _)) = false
  rw [hu]
  simp

/-- A forty-hex-digit line does not carry the `author-mail ` prefix. -/
theorem hex_not_mailPre (h : PyStr) (hh : isHex40 h = true) :
    mailPre.isPrefixOf h = false := by
  obtain ⟨c0, c1, t, rfl, _, h1⟩ := isHex40_two h hh
  have hu : ('u' == c1) = false := by
    rw [beq_eq_false_iff_ne]
    intro e
    rw [← e] at h1
    exact absurd h1 (by decide)
  show (('a' == c0) && (('u' == c1) && List.isPrefixOf _ _)) = false
  rw [hu]
  simp

/-- A forty-hex-digit line does not carry the `summary ` prefix (its first
character is a hex digit, not `s`). -/
theorem hex_not_summaryPre (h : PyStr) (hh : isHex40 h = true) :
    summaryPre.isPrefixOf h = false := by
  obtain ⟨c0, c1, t, rfl, h0, _⟩ := isHex40_two h hh
  have hs : ('s' == c0) = false := by
    rw [beq_eq_false_iff_ne]
    intro e
    rw [← e] at h0
    exact absurd h0 (by decide)
  show (('s' == c0) && List.isPrefixOf _ _) = false
  rw [hs]
  simp

/-- The parsing step on a line opening with forty hex digits records the
first eight characters as the short commit id. -/
theorem blameStep_hex (b : BlameInfo) (h : PyStr) (hh : isHex40 h = true) :
    blameStep b h = { b with commit := some (h.take 8) } := by
  unfold blameStep
  rw [hex_not_authorPre h hh, hex_not_mailPre h hh, hex_not_summaryPre h hh, hh,
    firstTokenTake8_hex h hh]
  simp

/-- Splitting a newline-free text yields that single line. -/
theorem splitNl_no_nl (a : PyStr) (ha : '\n' ∉ a) : splitNl a = [a] := by
  induction a with
  | nil => rfl
  | cons c t ih =>
    have hc : ¬ c = '\n' := fun e => ha (by simp [e])
    have ht : '\n' ∉ t := fun hm => ha (by simp [hm])
    simp [splitNl, hc, ih ht]

/-- Splitting after a newline-free first line peels that line off. -/
theorem splitNl_append (a b : PyStr) (ha : '\n' ∉ a) :
    splitNl (a ++ '\n' :: b) = a :: splitNl b := by
  induction a with
  | nil => simp [splitNl]
  | cons c t ih =>
    have hc : ¬ c = '\n' := fun e => ha (by simp [e])
    have ht : '\n' ∉ t := fun hm => ha (by simp [hm])
    simp [splitNl, hc, ih ht]

/-- The parsing step on an `author `-prefixed line records the raw
suffix. -/
theorem blameStep_author (b : BlameInfo) (a : PyStr) :
    blameStep b (authorPre ++ a) = { b with author := some a } := by
  have hp : authorPre.isPrefixOf (authorPre ++ a) = true := by
    simp [authorPre, List.isPrefixOf_cons₂]
  have hd : (authorPre ++ a).drop 7 = a := List.drop_left' (by rfl)
  simp [blameStep, hp, hd]

/-- The parsing step on an `author-mail `-prefixed line records the suffix
with surrounding angle brackets stripped. -/
theorem blameStep_mail (b : BlameInfo) (m : PyStr) :
    blameStep b (mailPre ++ m) = { b with email := some (stripAngles m) } := by
  have hpa : authorPre.isPrefixOf (mailPre ++ m) = false := by
    simp [authorPre, mailPre, List.isPrefixOf_cons₂]
  have hp : mailPre.isPrefixOf (mailPre ++ m) = true := by
    simp [mailPre, List.isPrefixOf_cons₂]
  have hd : (mailPre ++ m).drop 12 = m := List.drop_left' (by rfl)
  simp [blameStep, hpa, hp, hd]

/-- The parsing step on a `summary `-prefixed line records the raw
suffix. -/
theorem blameStep_summary (b : BlameInfo) (s : PyStr) :
    blameStep b (summaryPre ++ s) = { b with summary := some s } := by
  have hpa : authorPre.isPrefixOf (summaryPre ++ s) = false := by
    simp [authorPre, summaryPre, List.isPrefixOf_cons₂]
  have hpm : mailPre.isPrefixOf (summaryPre ++ s) = false := by
    simp [mailPre, summaryPre, List.isPrefixOf_cons₂]
  have hp : summaryPre.isPrefixOf (summaryPre ++ s) = true := by
    simp [summaryPre, List.isPrefixOf_cons₂]
  have hd : (summaryPre ++ s).drop 8 = s := List.drop_left' (by rfl)
  simp [blameStep, hpa, hpm, hp, hd]

/-- Parsing canonical porcelain output — one forty-hex commit line, one
`author `, one `author-mail ` and one `summary ` line — populates all four
fields as the source does. -/
theorem parseBlame_canonical (h a m s : PyStr) (hh : isHex40 h = true)
    (hhn : '\n' ∉ h) (han : '\n' ∉ a) (hmn : '\n' ∉ m) (hsn : '\n' ∉ s) :
    parseBlame (h ++ '\n' :: ((authorPre ++ a) ++ '\n' ::
        ((mailPre ++ m) ++ '\n' :: (summaryPre ++ s)))) =
      { author := some a, email := some (stripAngles m),
        commit := some (h.take 8), summary := some s } := by
  have hna : '\n' ∉ authorPre ++ a := by
    intro hm
    rcases List.mem_append.mp hm with h1 | h1
    · exact absurd h1 (by decide)
    · exact han h1
  have hnm : '\n' ∉ mailPre ++ m := by
    intro hx
    rcases List.mem_append.mp hx with h1 | h1
    · exact absurd h1 (by decide)
    · exact hmn h1
  have hns : '\n' ∉ summaryPre ++ s := by
    intro hx
    rcases List.mem_append.mp hx with h1 | h1
    · exact absurd h1 (by decide)
    · exact hsn h1
  have hsplit : splitNl (h ++ '\n' :: ((authorPre ++ a) ++ '\n' ::
      ((mailPre ++ m) ++ '\n' :: (summaryPre ++ s)))) =
      [h, authorPre ++ a, mailPre ++ m, summaryPre ++ s] := by
    rw [splitNl_append _ _ hhn, splitNl_append _ _ hna, splitNl_append _ _ hnm,
      splitNl_no_nl _ hns]
  unfold parseBlame
  rw [hsplit]
  simp only [List.foldl_cons, List.foldl_nil]
  rw [blameStep_hex _ _ hh, blameStep_author, blameStep_mail, blameStep_summary]

/-- With two forty-hex lines in the output, the parser keeps the commit id
of the last one (each match overwrites the field). -/
theorem parseBlame_two_hex (hA hB : PyStr) (hh1 : isHex40 hA = true)
    (hh2 : isHex40 hB = true) (hn1 : '\n' ∉ hA) (hn2 : '\n' ∉ hB) :
    parseBlame (hA ++ '\n' :: hB) =
      { author := none, email := none, commit := some (hB.take 8),
        summary := none } := by
  have hsplit : splitNl (hA ++ '\n' :: hB) = [hA, hB] := by
    rw [splitNl_append _ _ hn1, splitNl_no_nl _ hn2]
  unfold parseBlame
  rw [hsplit]
  simp only [List.foldl_cons, List.foldl_nil]
  rw [blameStep_hex _ _ hh1, blameStep_hex _ _ hh2]

/-! ## Claim C8 -/

/-- The blame output used to refute the original C8: two forty-hex lines. -/
def cexBlameOut : PyStr := List.replicate 40 'a' ++ '\n' :: List.replicate 40 'b'

/-- Oracles under which the blame command returns `cexBlameOut`. -/
def extCex : Externals := { extFix with gitBlameOut := fun _ _ _ => some cexBlameOut }

/-- C8 counterexample: on output whose first forty-hex line starts with
`a`s and whose last starts with `b`s, the parser records the short commit
id of the last such line, not of the first as claimed. -/
theorem C8_counterexample :
    ((get_git_blame extCex ("/r/f.php".toList) 1 (some ("/r".toList))).map
        BlameInfo.commit) = some (some (List.replicate 8 'b')) ∧
    List.replicate 8 'b' ≠ List.replicate 8 'a' := by
  decide

/-- C8 (amended): `get_git_blame` yields `None` when the repository root
is `None` (or when the blame command exits non-zero); on canonical
porcelain output it produces a record whose commit is the first eight
characters of the commit id taken from the last line starting with forty
hex digits (for canonical output, the only one), whose author and summary
are the raw suffixes of the `author ` and `summary ` lines, and whose
email is the `author-mail ` suffix with surrounding angle brackets
stripped; with two forty-hex lines, the last one's id wins. -/
theorem C8_amended_blame_parsing (ext1 ext2 : Externals) (fp : PyStr) (ln : Nat)
    (r1 r2 : PyStr) (h a m s hB : PyStr)
    (hh : isHex40 h = true) (hhn : '\n' ∉ h) (han : '\n' ∉ a) (hmn : '\n' ∉ m)
    (hsn : '\n' ∉ s) (hhB : isHex40 hB = true) (hnB : '\n' ∉ hB)
    (hfail : ext1.gitBlameOut fp ln r1 = none) (hr2 : r2 ≠ [])
    (hout : ext2.gitBlameOut fp ln r2 =
      some (h ++ '\n' :: ((authorPre ++ a) ++ '\n' ::
        ((mailPre ++ m) ++ '\n' :: (summaryPre ++ s))))) :
    get_git_blame ext1 fp ln none = none ∧
    get_git_blame ext1 fp ln (some r1) = none ∧
    get_git_blame ext2 fp ln (some r2) =
      some { author := some a, email := some (stripAngles m),
             commit := some (h.take 8), summary := some s } ∧
    parseBlame (h ++ '\n' :: hB) =
      { author := none, email := none, commit := some (hB.take 8),
        summary := none } := by
  refine ⟨rfl, ?_, ?_, parseBlame_two_hex h hB hh hhB hhn hnB⟩
  · by_cases h1 : r1 = [] <;> simp [get_git_blame, h1, hfail]
  · simp only [get_git_blame, hout]
    rw [if_neg hr2]
    exact congrArg some (parseBlame_canonical h a m s hh hhn han hmn hsn)

/-- A canonical concrete blame output for the C8 witness. -/
def c8hex : PyStr := List.replicate 40 'c'

/-- Oracles under which the blame command returns the canonical output. -/
def extC8 : Externals :=
  { extFix with
    gitBlameOut := fun _ _ _ =>
      some (c8hex ++ '\n' :: ((authorPre ++ "Jane Doe".toList) ++ '\n' ::
        ((mailPre ++ "<jane@example.com>".toList) ++ '\n' ::
          (summaryPre ++ "fix the bug".toList)))) }

/-- Witness for the amended C8 at concrete oracles and output. -/
theorem C8_amended_blame_parsing_witness :
    get_git_blame extFix ("/r/f.php".toList) 1 none = none ∧
    get_git_blame extFix ("/r/f.php".toList) 1 (some ("/r".toList)) = none ∧
    get_git_blame extC8 ("/r/f.php".toList) 1 (some ("/r".toList)) =
      some { author := some ("Jane Doe".toList),
             email := some (stripAngles ("<jane@example.com>".toList)),
             commit := some (c8hex.take 8), summary := some ("fix the bug".toList) } ∧
    parseBlame (c8hex ++ '\n' :: List.replicate 40 'd') =
      { author := none, email := none,
        commit := some ((List.replicate 40 'd').take 8), summary := none } :=
  C8_amended_blame_parsing extFix extC8 ("/r/f.php".toList) 1 ("/r".toList)
    ("/r".toList) c8hex ("Jane Doe".toList) ("<jane@example.com>".toList)
    ("fix the bug".toList) (List.replicate 40 'd')
    (by decide) (by decide) (by decide) (by decide) (by decide) (by decide)
    (by decide) rfl (by decide) rfl

end LogWatcher
